import Mathlib

/-
Formal model of the creative-studio backend.  The repository contains two
variants of the same server: a minimal Node implementation
(src/simple-backend-server.js) and an Express implementation
(src/unnamed/part_000).  JavaScript values relevant to the claims are
modelled shallowly: possibly-undefined strings become `Option String`,
JavaScript truthiness on them is `jsTruthy`, nondeterministic inputs
(Date.now(), Math.random().toString(36).substr(2, 9), new
Date().toISOString()) are explicit parameters, and outbound network calls
are reified as `FetchCall` values instead of being performed.
-/

set_option maxHeartbeats 1000000

namespace CreativeStudio

/-- Minimal JSON value model, covering the shapes the servers build. -/
inductive Json where
  | str (s : String)
  | arr (xs : List Json)
  | obj (fields : List (String × Json))

/-- Wrap a string in double quotes, the way JSON.stringify renders the
plain strings these servers emit (none contains characters that would
need escaping). -/
def jsQuote (s : String) : String :=
  "\"" ++ s ++ "\""

mutual

/-- Model of JSON.stringify restricted to the `Json` values above. -/
def jsonStringify : Json → String
  | .str s => jsQuote s
  | .arr xs => "[" ++ jsonStringifyList xs ++ "]"
  | .obj fs => "\x7b" ++ jsonStringifyFields fs ++ "\x7d"

/-- Comma-separated serialization of an array's elements. -/
def jsonStringifyList : List Json → String
  | [] => ""
  | [j] => jsonStringify j
  | j :: js => jsonStringify j ++ "," ++ jsonStringifyList js

/-- Comma-separated serialization of an object's fields. -/
def jsonStringifyFields : List (String × Json) → String
  | [] => ""
  | [f] => jsQuote f.1 ++ ":" ++ jsonStringify f.2
  | f :: fs => jsQuote f.1 ++ ":" ++ jsonStringify f.2 ++ "," ++ jsonStringifyFields fs

end

/-- Body of the `{ error: message }` responses both servers send. -/
def jsonError (msg : String) : Json :=
  Json.obj [(("error"), Json.str msg)]

/-- An HTTP response as produced by a handler: a status code plus the JSON
value passed to res.end / res.json, or `none` when the response is ended
with no body as in the Express `res.status(204).end()`. -/
structure HttpResp where
  status : Nat
  body : Option Json

/-- Model of `sendJson` (and of Express `res.status(k).json(obj)`): status
code plus a JSON body. -/
def sendJson (status : Nat) (obj : Json) : HttpResp :=
  { status := status, body := some obj }

/-- The bytes a response hands to the transport: the serialized body, or
nothing for a body-less `end()`. -/
def payloadBytes (r : HttpResp) : String :=
  match r.body with
  | none => ""
  | some j => jsonStringify j

/-- JavaScript truthiness of a possibly-undefined string: `undefined` and
the empty string are falsy. -/
def jsTruthy : Option String → Bool
  | none => false
  | some s => s != ""

/-- Model of toLowerCase on the character sequence of a string. -/
def jsToLowerCase (s : String) : String :=
  String.mk (s.data.map Char.toLower)

/-- Model of getUserId in simple-backend-server.js, on the character
sequence of the header: any `Bearer` header with a non-empty token
resolves to the fixed identity demo-user. -/
def getUserId (authHeader : Option String) : Option String :=
  let h := (authHeader.getD "").data
  if List.isPrefixOf ("Bearer ").data h then
    let token := h.drop 7
    if token = [] then none else some ("demo-user")
  else none

/-- Model of the authenticateUser middleware in the Express variant: the
same bearer-token check, resolving every token to demo-user. -/
def authenticateUser (authHeader : Option String) : Option String :=
  let h := (authHeader.getD "").data
  let token := if List.isPrefixOf ("Bearer ").data h then some (h.drop 7) else none
  match token with
  | none => none
  | some t => if t = [] then none else some ("demo-user")

/-- The three upstream providers. -/
inductive Provider where
  | gemini
  | claude
  | openai
deriving DecidableEq

/-- The credential environment variables the provider helpers read.  A
variable is `none` when absent from the process environment. -/
structure Env where
  geminiKey : Option String
  claudeKey : Option String
  openaiKey : Option String

/-- Name of the environment variable each provider requires. -/
def credName : Provider → String
  | .gemini => "GEMINI_API_KEY"
  | .claude => "CLAUDE_API_KEY"
  | .openai => "OPENAI_API_KEY"

/-- The credential an environment supplies for a provider. -/
def credOf (env : Env) : Provider → Option String
  | .gemini => env.geminiKey
  | .claude => env.claudeKey
  | .openai => env.openaiKey

/-- A reified outbound network call: which provider is contacted, with
which API key, and the prompt value embedded in the request body. -/
structure FetchCall where
  provider : Provider
  apiKey : String
  promptSent : Option String
deriving DecidableEq

/-- Model of callGemini up to the point the network is contacted: it
throws when the credential is falsy, otherwise it issues one fetch. -/
def callGemini (env : Env) (prompt : Option String) : Except String FetchCall :=
  let apiKey := env.geminiKey
  if !jsTruthy apiKey then .error ((credName .gemini) ++ " not configured")
  else .ok { provider := .gemini, apiKey := apiKey.getD "", promptSent := prompt }

/-- Model of callClaude, same shape as callGemini. -/
def callClaude (env : Env) (prompt : Option String) : Except String FetchCall :=
  let apiKey := env.claudeKey
  if !jsTruthy apiKey then .error ((credName .claude) ++ " not configured")
  else .ok { provider := .claude, apiKey := apiKey.getD "", promptSent := prompt }

/-- Model of callOpenAI, same shape as callGemini. -/
def callOpenAI (env : Env) (prompt : Option String) : Except String FetchCall :=
  let apiKey := env.openaiKey
  if !jsTruthy apiKey then .error ((credName .openai) ++ " not configured")
  else .ok { provider := .openai, apiKey := apiKey.getD "", promptSent := prompt }

/-- Dispatch helper used only in statements: the provider helper selected
for a given provider variant. -/
def invokeHelper : Provider → Env → Option String → Except String FetchCall
  | .gemini => callGemini
  | .claude => callClaude
  | .openai => callOpenAI

/-- Outcome of a POST /api/generate request, stopping at the first network
interaction: either a response is sent without touching the network, or
exactly one provider fetch is initiated. -/
inductive GenOutcome where
  | respond (r : HttpResp)
  | network (call : FetchCall)

/-- Whether the outcome initiates a network call. -/
def GenOutcome.isNetwork : GenOutcome → Bool
  | .respond _ => false
  | .network _ => true

/-- How a provider helper result surfaces in the route: a thrown error is
caught and answered as 500 with the message in the error body, a started
fetch is the network outcome. -/
def outcomeOf : Except String FetchCall → GenOutcome
  | .error msg => .respond (sendJson 500 (jsonError msg))
  | .ok c => .network c

/-- Model of the POST /api/generate route of simple-backend-server.js:
auth check, missing-field check, then the switch on the lowercased model
name. -/
def generateSimple (env : Env) (authHeader model prompt : Option String) : GenOutcome :=
  match getUserId authHeader with
  | none => .respond (sendJson 401 (jsonError ("Missing or invalid authorization token")))
  | some _ =>
    if !jsTruthy model || !jsTruthy prompt then
      .respond (sendJson 400 (jsonError ("Missing model or prompt")))
    else
      let m := jsToLowerCase (model.getD "")
      if m = "gemini" then outcomeOf (callGemini env prompt)
      else if m = "claude" then outcomeOf (callClaude env prompt)
      else if m = "openai" || m = "chatgpt" then outcomeOf (callOpenAI env prompt)
      else .respond (sendJson 400 (jsonError ("Unsupported model")))

/-- Model of the POST /api/generate route of the Express variant: auth
middleware, then the switch on the lowercased model name with no
missing-field check; the prompt is forwarded untouched. -/
def generateExpress (env : Env) (authHeader model prompt : Option String) : GenOutcome :=
  match authenticateUser authHeader with
  | none => .respond (sendJson 401 (jsonError ("Missing authorization token")))
  | some _ =>
    let m := jsToLowerCase (model.getD "")
    if m = "gemini" then outcomeOf (callGemini env prompt)
    else if m = "claude" then outcomeOf (callClaude env prompt)
    else if m = "openai" || m = "chatgpt" then outcomeOf (callOpenAI env prompt)
    else .respond (sendJson 400 (jsonError ("Unsupported model")))

/-- The provider a model string selects in the switch of either generate
route, after lowercasing. -/
def providerFor (m : String) : Option Provider :=
  if jsToLowerCase m = "gemini" then some .gemini
  else if jsToLowerCase m = "claude" then some .claude
  else if jsToLowerCase m = "openai" || jsToLowerCase m = "chatgpt" then some .openai
  else none

/-- The known-model test performed by the generate routes. -/
def knownModel (m : String) : Bool :=
  m = "gemini" || m = "claude" || m = "openai" || m = "chatgpt"

/-- A programme record as the servers build it.  Fields taken from the
request body may be absent (undefined); styleReferences is always an
array on creation but the Express update writes the raw body value. -/
structure Programme where
  id : String
  name : Option String
  genre : Option String
  targetAudience : Option String
  episodeLength : Option String
  styleReferences : Option (List String)
  createdAt : String
  updatedAt : Option String
deriving DecidableEq

/-- The fields destructured from a programme request body. -/
structure ProgBody where
  name : Option String
  genre : Option String
  targetAudience : Option String
  episodeLength : Option String
  styleReferences : Option (List String)
deriving DecidableEq

/-- A script record as the servers build it. -/
structure Script where
  id : String
  programmeId : Option String
  topic : Option String
  content : Option String
  sources : Option String
  createdAt : String
  updatedAt : Option String
deriving DecidableEq

/-- The fields destructured from a script request body. -/
structure ScriptBody where
  programmeId : Option String
  topic : Option String
  content : Option String
  sources : Option String
deriving DecidableEq

/-- Model of generateId: the template string
prefix-Date.now()-randomSuffix, with the clock reading and the random
suffix as explicit parameters. -/
def generateId (pre : String) (now : Nat) (rand : String) : String :=
  pre ++ "-" ++ toString now ++ "-" ++ rand

/-- The in-memory stores: one object keyed by user id per record kind.  A
key that was never written holds the empty sequence, matching the
`programmes[userId] || []` reads. -/
structure ServerState where
  programmes : String → List Programme
  scripts : String → List Script

/-- The store at process start: both objects empty. -/
def emptyState : ServerState :=
  { programmes := fun _ => [], scripts := fun _ => [] }

/-- Write a user's programme sequence, leaving every other key alone. -/
def setProgs (st : ServerState) (u : String) (l : List Programme) : ServerState :=
  { st with programmes := fun v => if v = u then l else st.programmes v }

/-- Write a user's script sequence, leaving every other key alone. -/
def setScripts (st : ServerState) (u : String) (l : List Script) : ServerState :=
  { st with scripts := fun v => if v = u then l else st.scripts v }

/-- Serialization of an optional string field: JSON.stringify drops
undefined fields. -/
def optStrField (k : String) : Option String → List (String × Json)
  | none => []
  | some v => [(k, Json.str v)]

/-- Serialization of an optional string-array field. -/
def optArrField (k : String) : Option (List String) → List (String × Json)
  | none => []
  | some xs => [(k, Json.arr (xs.map Json.str))]

/-- JSON shape of a programme record, fields in insertion order. -/
def progJson (p : Programme) : Json :=
  Json.obj ([(("id"), Json.str p.id)]
    ++ optStrField ("name") p.name
    ++ optStrField ("genre") p.genre
    ++ optStrField ("targetAudience") p.targetAudience
    ++ optStrField ("episodeLength") p.episodeLength
    ++ optArrField ("styleReferences") p.styleReferences
    ++ [(("createdAt"), Json.str p.createdAt)]
    ++ optStrField ("updatedAt") p.updatedAt)

/-- JSON shape of a script record, fields in insertion order. -/
def scriptJson (s : Script) : Json :=
  Json.obj ([(("id"), Json.str s.id)]
    ++ optStrField ("programmeId") s.programmeId
    ++ optStrField ("topic") s.topic
    ++ optStrField ("content") s.content
    ++ optStrField ("sources") s.sources
    ++ [(("createdAt"), Json.str s.createdAt)]
    ++ optStrField ("updatedAt") s.updatedAt)

/-- The programme record built by the POST /api/programmes handlers:
generated id, body fields, styleReferences defaulted to [], creation
timestamp stamped. -/
def mkProgramme (body : ProgBody) (now : Nat) (rand : String) (createdAt : String) : Programme :=
  { id := generateId ("programme") now rand
    name := body.name
    genre := body.genre
    targetAudience := body.targetAudience
    episodeLength := body.episodeLength
    styleReferences := some (body.styleReferences.getD [])
    createdAt := createdAt
    updatedAt := none }

/-- The script record built by the POST /api/scripts handlers. -/
def mkScript (body : ScriptBody) (now : Nat) (rand : String) (createdAt : String) : Script :=
  { id := generateId ("script") now rand
    programmeId := body.programmeId
    topic := body.topic
    content := body.content
    sources := body.sources
    createdAt := createdAt
    updatedAt := none }

/-- Replace the first element satisfying the test by applying g to it,
mirroring findIndex followed by assignment at that index; `none` when
findIndex returns -1. -/
def replaceFirst (cond : α → Bool) (g : α → α) : List α → Option (α × List α)
  | [] => none
  | x :: xs =>
    if cond x then some (g x, g x :: xs)
    else
      match replaceFirst cond g xs with
      | none => none
      | some q => some (q.1, x :: q.2)

/-- Remove the first element satisfying the test, mirroring findIndex
followed by splice(index, 1); `none` when findIndex returns -1. -/
def removeFirst (cond : α → Bool) : List α → Option (List α)
  | [] => none
  | x :: xs => if cond x then some xs else (removeFirst cond xs).map (fun l => x :: l)

/-- GET /api/programmes: respond 200 with the user's sequence. -/
def listProgrammesOp (st : ServerState) (u : String) : HttpResp × ServerState :=
  (sendJson 200 (Json.arr ((st.programmes u).map progJson)), st)

/-- POST /api/programmes: build the record, unshift it onto the user's
sequence, respond 201 with the record. -/
def createProgrammeOp (st : ServerState) (u : String) (body : ProgBody)
    (now : Nat) (rand : String) (createdAt : String) : HttpResp × ServerState :=
  let p := mkProgramme body now rand createdAt
  (sendJson 201 (progJson p), setProgs st u (p :: st.programmes u))

/-- The record update performed by PUT /api/programmes/:id in the minimal
server: spread of the old record, body fields, styleReferences defaulted
to [], update timestamp stamped. -/
def applyProgUpdateSimple (body : ProgBody) (updatedAt : String) (p : Programme) : Programme :=
  { p with
    name := body.name
    genre := body.genre
    targetAudience := body.targetAudience
    episodeLength := body.episodeLength
    styleReferences := some (body.styleReferences.getD [])
    updatedAt := some updatedAt }

/-- The record update performed by PUT /api/programmes/:id in the Express
variant: identical except that styleReferences is written raw with no
default. -/
def applyProgUpdateExpress (body : ProgBody) (updatedAt : String) (p : Programme) : Programme :=
  { p with
    name := body.name
    genre := body.genre
    targetAudience := body.targetAudience
    episodeLength := body.episodeLength
    styleReferences := body.styleReferences
    updatedAt := some updatedAt }

/-- PUT /api/programmes/:id in the minimal server. -/
def updateProgrammeSimple (st : ServerState) (u id : String) (body : ProgBody)
    (updatedAt : String) : HttpResp × ServerState :=
  match replaceFirst (fun p => p.id == id) (applyProgUpdateSimple body updatedAt)
      (st.programmes u) with
  | none => (sendJson 404 (jsonError ("Programme not found")), st)
  | some q => (sendJson 200 (progJson q.1), setProgs st u q.2)

/-- PUT /api/programmes/:id in the Express variant. -/
def updateProgrammeExpress (st : ServerState) (u id : String) (body : ProgBody)
    (updatedAt : String) : HttpResp × ServerState :=
  match replaceFirst (fun p => p.id == id) (applyProgUpdateExpress body updatedAt)
      (st.programmes u) with
  | none => (sendJson 404 (jsonError ("Programme not found")), st)
  | some q => (sendJson 200 (progJson q.1), setProgs st u q.2)

/-- DELETE /api/programmes/:id in the minimal server: on success it calls
sendJson with status 204 and the empty object, so the serialized empty
object is handed to the response. -/
def deleteProgrammeSimple (st : ServerState) (u id : String) : HttpResp × ServerState :=
  match removeFirst (fun p => p.id == id) (st.programmes u) with
  | none => (sendJson 404 (jsonError ("Programme not found")), st)
  | some l => (sendJson 204 (Json.obj []), setProgs st u l)

/-- DELETE /api/programmes/:id in the Express variant: on success it ends
the response with status 204 and no body at all. -/
def deleteProgrammeExpress (st : ServerState) (u id : String) : HttpResp × ServerState :=
  match removeFirst (fun p => p.id == id) (st.programmes u) with
  | none => (sendJson 404 (jsonError ("Programme not found")), st)
  | some l => ({ status := 204, body := none }, setProgs st u l)

/-- GET /api/scripts. -/
def listScriptsOp (st : ServerState) (u : String) : HttpResp × ServerState :=
  (sendJson 200 (Json.arr ((st.scripts u).map scriptJson)), st)

/-- POST /api/scripts. -/
def createScriptOp (st : ServerState) (u : String) (body : ScriptBody)
    (now : Nat) (rand : String) (createdAt : String) : HttpResp × ServerState :=
  let s := mkScript body now rand createdAt
  (sendJson 201 (scriptJson s), setScripts st u (s :: st.scripts u))

/-- The record update performed by PUT /api/scripts/:id, identical in both
variants: only content, sources and updatedAt are written. -/
def applyScriptUpdate (body : ScriptBody) (updatedAt : String) (s : Script) : Script :=
  { s with
    content := body.content
    sources := body.sources
    updatedAt := some updatedAt }

/-- PUT /api/scripts/:id. -/
def updateScriptOp (st : ServerState) (u id : String) (body : ScriptBody)
    (updatedAt : String) : HttpResp × ServerState :=
  match replaceFirst (fun s => s.id == id) (applyScriptUpdate body updatedAt)
      (st.scripts u) with
  | none => (sendJson 404 (jsonError ("Script not found")), st)
  | some q => (sendJson 200 (scriptJson q.1), setScripts st u q.2)

/-- DELETE /api/scripts/:id in the minimal server. -/
def deleteScriptSimple (st : ServerState) (u id : String) : HttpResp × ServerState :=
  match removeFirst (fun s => s.id == id) (st.scripts u) with
  | none => (sendJson 404 (jsonError ("Script not found")), st)
  | some l => (sendJson 204 (Json.obj []), setScripts st u l)

/-- DELETE /api/scripts/:id in the Express variant. -/
def deleteScriptExpress (st : ServerState) (u id : String) : HttpResp × ServerState :=
  match removeFirst (fun s => s.id == id) (st.scripts u) with
  | none => (sendJson 404 (jsonError ("Script not found")), st)
  | some l => ({ status := 204, body := none }, setScripts st u l)

/-- One authenticated record-store request, with the nondeterministic
inputs of creates and updates made explicit. -/
inductive Op where
  | listProgs
  | createProg (body : ProgBody) (now : Nat) (rand : String) (createdAt : String)
  | updateProg (id : String) (body : ProgBody) (updatedAt : String)
  | deleteProg (id : String)
  | listScripts
  | createScript (body : ScriptBody) (now : Nat) (rand : String) (createdAt : String)
  | updateScript (id : String) (body : ScriptBody) (updatedAt : String)
  | deleteScript (id : String)

/-- Dispatch one store request for the resolved user identity. -/
def applyOp (u : String) (st : ServerState) : Op → HttpResp × ServerState
  | .listProgs => listProgrammesOp st u
  | .createProg b n r c => createProgrammeOp st u b n r c
  | .updateProg i b t => updateProgrammeSimple st u i b t
  | .deleteProg i => deleteProgrammeSimple st u i
  | .listScripts => listScriptsOp st u
  | .createScript b n r c => createScriptOp st u b n r c
  | .updateScript i b t => updateScriptOp st u i b t
  | .deleteScript i => deleteScriptSimple st u i

/-- Run a sequence of store requests as one user, collecting the
responses. -/
def runOps (u : String) (st : ServerState) : List Op → List HttpResp × ServerState
  | [] => ([], st)
  | op :: ops =>
    let q := applyOp u st op
    let r := runOps u q.2 ops
    (q.1 :: r.1, r.2)

/-- The create requests corresponding to a list of
(body, clock, random suffix, iso timestamp) inputs. -/
def createOpsOf (ins : List (ProgBody × Nat × String × String)) : List Op :=
  ins.map fun q => Op.createProg q.1 q.2.1 q.2.2.1 q.2.2.2

/-- The programme record each create input produces. -/
def mkOf (q : ProgBody × Nat × String × String) : Programme :=
  mkProgramme q.1 q.2.1 q.2.2.1 q.2.2.2

/-- Both auth shims resolve headers identically; they differ only in the
error message attached to the 401 response. -/
lemma auth_resolvers_agree (a : Option String) : authenticateUser a = getUserId a := by
  unfold authenticateUser getUserId
  by_cases h : List.isPrefixOf ("Bearer ").data (a.getD "").data
  · simp [h]
  · simp [h]

/-- When no element passes the test, findIndex returns -1 and the
update path takes the not-found branch. -/
lemma replaceFirst_of_not_mem {α : Type} {cond : α → Bool} (g : α → α) {l : List α}
    (h : ∀ x ∈ l, cond x = false) : replaceFirst cond g l = none := by
  induction l with
  | nil => rfl
  | cons x xs ih =>
    have hx := h x (List.mem_cons_self x xs)
    have hxs := ih fun y hy => h y (List.mem_cons_of_mem _ hy)
    simp [replaceFirst, hx, hxs]

/-- When some element passes the test, the list splits at the first such
element and the update rewrites exactly that position. -/
lemma replaceFirst_decomp {α : Type} (cond : α → Bool) (g : α → α) {l : List α} {x : α}
    (hx : x ∈ l) (hcx : cond x = true) :
    ∃ l1 a l2, l = l1 ++ a :: l2 ∧ (∀ y ∈ l1, cond y = false) ∧ cond a = true ∧
      replaceFirst cond g l = some (g a, l1 ++ g a :: l2) := by
  induction l with
  | nil => cases hx
  | cons b bs ih =>
    by_cases hb : cond b = true
    · exact ⟨[], b, bs, rfl, by simp, hb, by simp [replaceFirst, hb]⟩
    · have hxbs : x ∈ bs := by
        rcases List.mem_cons.1 hx with h | h
        · subst h; exact absurd hcx hb
        · exact h
      obtain ⟨l1, a, l2, hl, h1, ha, hr⟩ := ih hxbs
      refine ⟨b :: l1, a, l2, by simp [hl], ?_, ha, ?_⟩
      · intro y hy
        rcases List.mem_cons.1 hy with rfl | hy
        · exact Bool.not_eq_true _ ▸ hb
        · exact h1 y hy
      · simp [replaceFirst, hb, hr]

/-- When no element passes the test, splice is never reached. -/
lemma removeFirst_of_not_mem {α : Type} {cond : α → Bool} {l : List α}
    (h : ∀ x ∈ l, cond x = false) : removeFirst cond l = none := by
  induction l with
  | nil => rfl
  | cons x xs ih =>
    have hx := h x (List.mem_cons_self x xs)
    have hxs := ih fun y hy => h y (List.mem_cons_of_mem _ hy)
    simp [removeFirst, hx, hxs]

/-- When some element passes the test, the list splits at the first such
element and splice removes exactly that position. -/
lemma removeFirst_decomp {α : Type} (cond : α → Bool) {l : List α} {x : α}
    (hx : x ∈ l) (hcx : cond x = true) :
    ∃ l1 a l2, l = l1 ++ a :: l2 ∧ (∀ y ∈ l1, cond y = false) ∧ cond a = true ∧
      removeFirst cond l = some (l1 ++ l2) := by
  induction l with
  | nil => cases hx
  | cons b bs ih =>
    by_cases hb : cond b = true
    · exact ⟨[], b, bs, rfl, by simp, hb, by simp [removeFirst, hb]⟩
    · have hxbs : x ∈ bs := by
        rcases List.mem_cons.1 hx with h | h
        · subst h; exact absurd hcx hb
        · exact h
      obtain ⟨l1, a, l2, hl, h1, ha, hr⟩ := ih hxbs
      refine ⟨b :: l1, a, l2, by simp [hl], ?_, ha, ?_⟩
      · intro y hy
        rcases List.mem_cons.1 hy with rfl | hy
        · exact Bool.not_eq_true _ ▸ hb
        · exact h1 y hy
      · simp [removeFirst, hb, hr]

/-- Store requests dispatched for one user never write another user's
key. -/
lemma applyOp_frame {u v : String} (hvu : v ≠ u) (st : ServerState) (op : Op) :
    ((applyOp u st op).2).programmes v = st.programmes v ∧
    ((applyOp u st op).2).scripts v = st.scripts v := by
  cases op with
  | listProgs => exact ⟨rfl, rfl⟩
  | createProg b n r c => simp [applyOp, createProgrammeOp, setProgs, hvu]
  | updateProg i b t =>
    simp only [applyOp]
    unfold updateProgrammeSimple
    generalize replaceFirst (fun p => p.id == i) (applyProgUpdateSimple b t) (st.programmes u)
      = res
    cases res with
    | none => exact ⟨rfl, rfl⟩
    | some q => simp [setProgs, hvu]
  | deleteProg i =>
    simp only [applyOp]
    unfold deleteProgrammeSimple
    generalize removeFirst (fun p => p.id == i) (st.programmes u) = res
    cases res with
    | none => exact ⟨rfl, rfl⟩
    | some l => simp [setProgs, hvu]
  | listScripts => exact ⟨rfl, rfl⟩
  | createScript b n r c => simp [applyOp, createScriptOp, setScripts, hvu]
  | updateScript i b t =>
    simp only [applyOp]
    unfold updateScriptOp
    generalize replaceFirst (fun s => s.id == i) (applyScriptUpdate b t) (st.scripts u) = res
    cases res with
    | none => exact ⟨rfl, rfl⟩
    | some q => simp [setScripts, hvu]
  | deleteScript i =>
    simp only [applyOp]
    unfold deleteScriptSimple
    generalize removeFirst (fun s => s.id == i) (st.scripts u) = res
    cases res with
    | none => exact ⟨rfl, rfl⟩
    | some l => simp [setScripts, hvu]

/-- Store requests dispatched for one user read only that user's key: on
two states agreeing at the user's key, the response and the user's
resulting key agree. -/
lemma applyOp_agree {u : String} {st st2 : ServerState}
    (hp : st2.programmes u = st.programmes u) (hs : st2.scripts u = st.scripts u) (op : Op) :
    (applyOp u st2 op).1 = (applyOp u st op).1 ∧
    ((applyOp u st2 op).2).programmes u = ((applyOp u st op).2).programmes u ∧
    ((applyOp u st2 op).2).scripts u = ((applyOp u st op).2).scripts u := by
  cases op with
  | listProgs => exact ⟨by simp [applyOp, listProgrammesOp, hp], hp, hs⟩
  | createProg b n r c => simp [applyOp, createProgrammeOp, setProgs, hp, hs]
  | updateProg i b t =>
    simp only [applyOp]
    unfold updateProgrammeSimple
    rw [hp]
    generalize replaceFirst (fun p => p.id == i) (applyProgUpdateSimple b t) (st.programmes u)
      = res
    cases res with
    | none => exact ⟨rfl, hp, hs⟩
    | some q => simp [setProgs, hs]
  | deleteProg i =>
    simp only [applyOp]
    unfold deleteProgrammeSimple
    rw [hp]
    generalize removeFirst (fun p => p.id == i) (st.programmes u) = res
    cases res with
    | none => exact ⟨rfl, hp, hs⟩
    | some l => simp [setProgs, hs]
  | listScripts => exact ⟨by simp [applyOp, listScriptsOp, hs], hp, hs⟩
  | createScript b n r c => simp [applyOp, createScriptOp, setScripts, hp, hs]
  | updateScript i b t =>
    simp only [applyOp]
    unfold updateScriptOp
    rw [hs]
    generalize replaceFirst (fun s => s.id == i) (applyScriptUpdate b t) (st.scripts u) = res
    cases res with
    | none => exact ⟨rfl, hp, hs⟩
    | some q => simp [setScripts, hp]
  | deleteScript i =>
    simp only [applyOp]
    unfold deleteScriptSimple
    rw [hs]
    generalize removeFirst (fun s => s.id == i) (st.scripts u) = res
    cases res with
    | none => exact ⟨rfl, hp, hs⟩
    | some l => simp [setScripts, hp]

/-- Sequences of store requests for one user never write another user's
key. -/
lemma runOps_frame {u v : String} (hvu : v ≠ u) (st : ServerState) (ops : List Op) :
    ((runOps u st ops).2).programmes v = st.programmes v ∧
    ((runOps u st ops).2).scripts v = st.scripts v := by
  induction ops generalizing st with
  | nil => exact ⟨rfl, rfl⟩
  | cons op ops ih =>
    have h1 := applyOp_frame hvu st op
    have h2 := ih (applyOp u st op).2
    simp only [runOps]
    exact ⟨h2.1.trans h1.1, h2.2.trans h1.2⟩

/-- Sequences of store requests for one user observe only that user's
data: on two states agreeing at the user's key, all responses agree. -/
lemma runOps_agree {u : String} {st st2 : ServerState}
    (hp : st2.programmes u = st.programmes u) (hs : st2.scripts u = st.scripts u)
    (ops : List Op) :
    (runOps u st2 ops).1 = (runOps u st ops).1 ∧
    ((runOps u st2 ops).2).programmes u = ((runOps u st ops).2).programmes u ∧
    ((runOps u st2 ops).2).scripts u = ((runOps u st ops).2).scripts u := by
  induction ops generalizing st st2 with
  | nil => exact ⟨rfl, hp, hs⟩
  | cons op ops ih =>
    obtain ⟨e1, e2, e3⟩ := applyOp_agree hp hs op
    obtain ⟨f1, f2, f3⟩ := ih e2 e3
    simp only [runOps]
    exact ⟨by rw [e1, f1], f2, f3⟩

/-- Running a batch of creates prepends the new records, most recent
first. -/
lemma runOps_createOps (u : String) (st : ServerState)
    (ins : List (ProgBody × Nat × String × String)) :
    ((runOps u st (createOpsOf ins)).2).programmes u =
      (ins.map mkOf).reverse ++ st.programmes u := by
  induction ins generalizing st with
  | nil => simp [createOpsOf, runOps]
  | cons q qs ih =>
    simp only [createOpsOf, List.map_cons, runOps, applyOp, createProgrammeOp]
    rw [show (createOpsOf qs) = qs.map fun q => Op.createProg q.1 q.2.1 q.2.2.1 q.2.2.2 from rfl]
      at ih
    rw [ih]
    simp [setProgs, mkOf, List.append_assoc]

/-- Numeric value of a decimal digit character. -/
def digitVal (c : Char) : Nat := c.toNat - 48

/-- Value of a big-endian list of decimal digit characters. -/
def digitsVal (l : List Char) : Nat := l.foldl (fun a c => a * 10 + digitVal c) 0

/-- Appending a digit multiplies the value by ten and adds the digit. -/
lemma digitsVal_append_singleton (l : List Char) (c : Char) :
    digitsVal (l ++ [c]) = digitsVal l * 10 + digitVal c := by
  simp [digitsVal, List.foldl_append]

/-- The decimal digit characters below the base never include a dash. -/
lemma digitChar_ne_dash {m : Nat} (h : m < 10) : Nat.digitChar m ≠ '-' := by
  interval_cases m <;> decide

/-- Round trip for decimal digit characters below the base. -/
lemma digitVal_digitChar {m : Nat} (h : m < 10) : digitVal (Nat.digitChar m) = m := by
  interval_cases m <;> decide

/-- The accumulator of toDigitsCore is a suffix of its output. -/
lemma toDigitsCore_append (fuel : Nat) : ∀ (n : Nat) (ds : List Char),
    Nat.toDigitsCore 10 fuel n ds = Nat.toDigitsCore 10 fuel n [] ++ ds := by
  induction fuel with
  | zero => intro n ds; simp [Nat.toDigitsCore]
  | succ f ih =>
    intro n ds
    unfold Nat.toDigitsCore
    by_cases h : n / 10 = 0
    · simp [h]
    · simp only [h, if_false]
      rw [ih (n / 10) (Nat.digitChar (n % 10) :: ds), ih (n / 10) [Nat.digitChar (n % 10)]]
      simp

/-- Every character toDigitsCore produces beyond its accumulator is a
digit character, hence not a dash. -/
lemma toDigitsCore_no_dash (fuel : Nat) : ∀ (n : Nat) (ds : List Char),
    (∀ c ∈ ds, c ≠ '-') → ∀ c ∈ Nat.toDigitsCore 10 fuel n ds, c ≠ '-' := by
  induction fuel with
  | zero => intro n ds hds; simpa [Nat.toDigitsCore] using hds
  | succ f ih =>
    intro n ds hds
    unfold Nat.toDigitsCore
    by_cases h : n / 10 = 0
    · simp only [h, if_true]
      intro c hc
      rcases List.mem_cons.1 hc with rfl | hc
      · exact digitChar_ne_dash (Nat.mod_lt n (by norm_num))
      · exact hds c hc
    · simp only [h, if_false]
      refine ih (n / 10) _ ?_
      intro c hc
      rcases List.mem_cons.1 hc with rfl | hc
      · exact digitChar_ne_dash (Nat.mod_lt n (by norm_num))
      · exact hds c hc

/-- The decimal representation of a natural number contains no dash. -/
lemma repr_no_dash (n : Nat) : ∀ c ∈ (Nat.repr n).data, c ≠ '-' := by
  have e : (Nat.repr n).data = Nat.toDigitsCore 10 (n + 1) n [] := rfl
  rw [e]
  exact toDigitsCore_no_dash (n + 1) n [] (by simp)

/-- toDigitsCore with enough fuel computes the decimal digits of its
input: folding them back recovers the number. -/
lemma digitsVal_toDigitsCore (fuel : Nat) : ∀ n : Nat, n < 10 ^ fuel →
    digitsVal (Nat.toDigitsCore 10 fuel n []) = n := by
  induction fuel with
  | zero =>
    intro n h
    have : n = 0 := by simpa using Nat.lt_one_iff.1 (by simpa using h)
    subst this
    rfl
  | succ f ih =>
    intro n h
    unfold Nat.toDigitsCore
    by_cases h0 : n / 10 = 0
    · simp only [h0, if_true]
      have hn : n % 10 = n := by omega
      have : digitsVal [Nat.digitChar (n % 10)] = digitVal (Nat.digitChar (n % 10)) := by
        simp [digitsVal]
      rw [this, digitVal_digitChar (Nat.mod_lt n (by norm_num))]
      exact hn
    · simp only [h0, if_false]
      rw [toDigitsCore_append, digitsVal_append_singleton]
      have hlt : n / 10 < 10 ^ f := by
        refine (Nat.div_lt_iff_lt_mul (by norm_num)).2 ?_
        calc n < 10 ^ (f + 1) := h
          _ = 10 ^ f * 10 := by ring
      rw [ih (n / 10) hlt, digitVal_digitChar (Nat.mod_lt n (by norm_num))]
      omega

/-- Folding the decimal representation of a number recovers the number. -/
lemma digitsVal_repr (n : Nat) : digitsVal (Nat.repr n).data = n := by
  have e : (Nat.repr n).data = Nat.toDigitsCore 10 (n + 1) n [] := rfl
  rw [e]
  refine digitsVal_toDigitsCore (n + 1) n ?_
  calc n < 10 ^ n := Nat.lt_pow_self (by norm_num) n
    _ ≤ 10 ^ (n + 1) := Nat.pow_le_pow_right (by norm_num) (Nat.le_succ n)

/-- The toString instance on Nat is the decimal representation. -/
lemma toString_nat (n : Nat) : toString n = Nat.repr n := rfl

/-- Splitting two dash-separated character lists at a dash that occurs in
neither left part identifies the parts. -/
lemma dash_split {l1 : List Char} : ∀ {l2 r1 r2 : List Char},
    (∀ c ∈ l1, c ≠ '-') → (∀ c ∈ l2, c ≠ '-') →
    l1 ++ '-' :: r1 = l2 ++ '-' :: r2 → l1 = l2 ∧ r1 = r2 := by
  induction l1 with
  | nil =>
    intro l2 r1 r2 h1 h2 h
    cases l2 with
    | nil => simpa using h
    | cons b t =>
      simp only [List.nil_append, List.cons_append] at h
      injection h with hb _
      exact absurd hb.symm (h2 b (List.mem_cons_self b t))
  | cons a t ih =>
    intro l2 r1 r2 h1 h2 h
    cases l2 with
    | nil =>
      simp only [List.cons_append, List.nil_append] at h
      injection h with ha _
      exact absurd ha (h1 a (List.mem_cons_self a t))
    | cons b t2 =>
      simp only [List.cons_append] at h
      injection h with hab ht
      obtain ⟨e1, e2⟩ := ih (fun c hc => h1 c (List.mem_cons_of_mem _ hc))
        (fun c hc => h2 c (List.mem_cons_of_mem _ hc)) ht
      exact ⟨by rw [hab, e1], e2⟩

/-- Two equal generated ids with the same prefix come from the same clock
reading and the same random suffix: the digits of the clock reading are
dash-free, so the dash that follows them is unambiguous. -/
lemma generateId_inj {pre : String} {n1 n2 : Nat} {r1 r2 : String}
    (h : generateId pre n1 r1 = generateId pre n2 r2) : n1 = n2 ∧ r1 = r2 := by
  have hd := congrArg String.data h
  simp only [generateId, String.data_append] at hd
  simp only [List.append_assoc, List.singleton_append] at hd
  have hd2 : (toString n1).data ++ '-' :: r1.data = (toString n2).data ++ '-' :: r2.data := by
    have := List.append_cancel_left hd
    injection this
  have hfree1 : ∀ c ∈ (toString n1).data, c ≠ '-' := by
    rw [toString_nat]; exact repr_no_dash n1
  have hfree2 : ∀ c ∈ (toString n2).data, c ≠ '-' := by
    rw [toString_nat]; exact repr_no_dash n2
  obtain ⟨e1, e2⟩ := dash_split hfree1 hfree2 hd2
  constructor
  · have := congrArg digitsVal e1
    rw [toString_nat, toString_nat] at this
    rw [digitsVal_repr, digitsVal_repr] at this
    exact this
  · calc r1 = r1.toList.asString := (String.asString_toList r1).symm
      _ = r2.toList.asString := by
        have : r1.toList = r2.toList := e2
        rw [this]
      _ = r2 := String.asString_toList r2

/-- An empty request body for programmes. -/
def noFields : ProgBody :=
  { name := none, genre := none, targetAudience := none, episodeLength := none,
    styleReferences := none }

/-- A concrete programme record used in witnesses. -/
def pgmA : Programme :=
  { id := "p1", name := some ("n"), genre := none, targetAudience := none,
    episodeLength := none, styleReferences := some [], createdAt := "t0", updatedAt := none }

/-- A store holding exactly one programme for demo-user. -/
def stOneProg : ServerState :=
  { programmes := fun v => if v = "demo-user" then [pgmA] else [], scripts := fun _ => [] }

/-- A concrete script record used in witnesses. -/
def scrA : Script :=
  { id := "s1", programmeId := some ("pg1"), topic := some ("tp"), content := some ("c"),
    sources := some ("src"), createdAt := "t0", updatedAt := none }

/-- A store holding exactly one script for demo-user. -/
def stOneScript : ServerState :=
  { programmes := fun _ => [], scripts := fun v => if v = "demo-user" then [scrA] else [] }

/-- A concrete script update body used in witnesses. -/
def updBody : ScriptBody :=
  { programmeId := none, topic := none, content := some ("c2"), sources := some ("src2") }

/-- C1: cross-user isolation of the record store.  For distinct user
identities A and B, any sequence of list/create/update/delete requests
performed as A leaves B's programme and script sequences unchanged,
observes nothing outside A's own sequences (the responses are identical
on any state that agrees with the original at A), leaves B's list result
unchanged, and never makes a record appear in B's sequence that was not
already there — in particular a programme created by A never appears in
B's list. -/
theorem cross_user_isolation (st : ServerState) (A B : String) (hAB : A ≠ B)
    (ops : List Op) :
    ((runOps A st ops).2).programmes B = st.programmes B ∧
    ((runOps A st ops).2).scripts B = st.scripts B ∧
    (∀ st2 : ServerState, st2.programmes A = st.programmes A →
      st2.scripts A = st.scripts A →
      (runOps A st2 ops).1 = (runOps A st ops).1) ∧
    (listProgrammesOp ((runOps A st ops).2) B).1 = (listProgrammesOp st B).1 ∧
    ∀ p : Programme, p ∉ st.programmes B → p ∉ ((runOps A st ops).2).programmes B := by
  have hBA : B ≠ A := fun e => hAB e.symm
  obtain ⟨f1, f2⟩ := runOps_frame hBA st ops
  refine ⟨f1, f2, ?_, ?_, ?_⟩
  · intro st2 hp hs
    exact (runOps_agree hp hs ops).1
  · unfold listProgrammesOp
    rw [f1]
  · intro p hp
    rw [f1]
    exact hp

/-- Witness for C1 at a concrete store, user pair and request list. -/
theorem cross_user_isolation_witness :
    ("demo-user" : String) ≠ "other" ∧
    (((runOps "demo-user" emptyState [Op.listProgs]).2).programmes "other" =
        emptyState.programmes "other" ∧
      ((runOps "demo-user" emptyState [Op.listProgs]).2).scripts "other" =
        emptyState.scripts "other" ∧
      (∀ st2 : ServerState, st2.programmes "demo-user" = emptyState.programmes "demo-user" →
        st2.scripts "demo-user" = emptyState.scripts "demo-user" →
        (runOps "demo-user" st2 [Op.listProgs]).1 =
          (runOps "demo-user" emptyState [Op.listProgs]).1) ∧
      (listProgrammesOp ((runOps "demo-user" emptyState [Op.listProgs]).2) "other").1 =
        (listProgrammesOp emptyState "other").1 ∧
      ∀ p : Programme, p ∉ emptyState.programmes "other" →
        p ∉ ((runOps "demo-user" emptyState [Op.listProgs]).2).programmes "other") :=
  ⟨by decide, cross_user_isolation emptyState "demo-user" "other" (by decide) [Op.listProgs]⟩

/-- C4: create inserts at the front of the caller's sequence, so after a
batch of creates the user's sequence — and hence the 200 list response —
is the new records in reverse-creation order followed by the previously
existing records. -/
theorem create_unshifts_reverse_order (u : String) (st : ServerState)
    (ins : List (ProgBody × Nat × String × String)) :
    ((runOps u st (createOpsOf ins)).2).programmes u =
      (ins.map mkOf).reverse ++ st.programmes u ∧
    (listProgrammesOp ((runOps u st (createOpsOf ins)).2) u).1 =
      sendJson 200 (Json.arr (((ins.map mkOf).reverse ++ st.programmes u).map progJson)) := by
  have h := runOps_createOps u st ins
  refine ⟨h, ?_⟩
  unfold listProgrammesOp
  rw [h]

/-- C5: updating an id absent from the caller's sequence answers 404 with
the not-found error body and returns the store exactly as it was, in both
server variants. -/
theorem update_missing_id_not_found (st : ServerState) (u pid : String) (body : ProgBody)
    (t : String) (hnone : ∀ p ∈ st.programmes u, (p.id == pid) = false) :
    updateProgrammeSimple st u pid body t =
      (sendJson 404 (jsonError ("Programme not found")), st) ∧
    updateProgrammeExpress st u pid body t =
      (sendJson 404 (jsonError ("Programme not found")), st) := by
  have h1 := replaceFirst_of_not_mem (applyProgUpdateSimple body t) hnone
  have h2 := replaceFirst_of_not_mem (applyProgUpdateExpress body t) hnone
  constructor
  · unfold updateProgrammeSimple
    rw [h1]
  · unfold updateProgrammeExpress
    rw [h2]

/-- Witness for C5 on the empty store. -/
theorem update_missing_id_not_found_witness :
    (∀ p ∈ emptyState.programmes "demo-user", (p.id == "p1") = false) ∧
    (updateProgrammeSimple emptyState "demo-user" "p1" noFields "t1" =
      (sendJson 404 (jsonError ("Programme not found")), emptyState) ∧
    updateProgrammeExpress emptyState "demo-user" "p1" noFields "t1" =
      (sendJson 404 (jsonError ("Programme not found")), emptyState)) :=
  ⟨by decide, update_missing_id_not_found emptyState "demo-user" "p1" noFields "t1" (by decide)⟩

/-- C6: when an id occurs in the caller's sequence (whose ids are
pairwise distinct, as create maintains), the first DELETE answers 204 and
removes exactly the record carrying that id — everything else, including
other users' sequences and all scripts, is untouched — and an immediately
repeated DELETE of the same id answers 404 and changes nothing, in both
server variants. -/
theorem delete_twice (st : ServerState) (u pid : String)
    (hmem : ∃ p ∈ st.programmes u, p.id = pid)
    (hnd : ((st.programmes u).map (fun p => p.id)).Nodup) :
    (deleteProgrammeSimple st u pid).1.status = 204 ∧
    (∃ l1 a l2, st.programmes u = l1 ++ a :: l2 ∧ a.id = pid ∧ (∀ y ∈ l1, y.id ≠ pid) ∧
      ((deleteProgrammeSimple st u pid).2).programmes u = l1 ++ l2) ∧
    (∀ v, v ≠ u → ((deleteProgrammeSimple st u pid).2).programmes v = st.programmes v) ∧
    ((deleteProgrammeSimple st u pid).2).scripts = st.scripts ∧
    (deleteProgrammeSimple ((deleteProgrammeSimple st u pid).2) u pid).1.status = 404 ∧
    (deleteProgrammeSimple ((deleteProgrammeSimple st u pid).2) u pid).2 =
      (deleteProgrammeSimple st u pid).2 ∧
    (deleteProgrammeExpress st u pid).1.status = 204 ∧
    (deleteProgrammeExpress ((deleteProgrammeExpress st u pid).2) u pid).1.status = 404 := by
  obtain ⟨x, hx, hxid⟩ := hmem
  obtain ⟨l1, a, l2, hl, hfree, ha, hr⟩ :=
    removeFirst_decomp (fun p => p.id == pid) hx (by simp [hxid])
  have haid : a.id = pid := by simpa using ha
  have e1 : deleteProgrammeSimple st u pid =
      (sendJson 204 (Json.obj []), setProgs st u (l1 ++ l2)) := by
    unfold deleteProgrammeSimple
    rw [hr]
  have e1x : deleteProgrammeExpress st u pid =
      ({ status := 204, body := none }, setProgs st u (l1 ++ l2)) := by
    unfold deleteProgrammeExpress
    rw [hr]
  have hslice : (setProgs st u (l1 ++ l2)).programmes u = l1 ++ l2 := by
    simp [setProgs]
  have hall : ∀ y ∈ l1 ++ l2, (y.id == pid) = false := by
    have hnotin : a.id ∉ l2.map (fun p => p.id) := by
      rw [hl] at hnd
      simp only [List.map_append, List.map_cons, List.nodup_append, List.nodup_cons] at hnd
      exact hnd.2.1.1
    intro y hy
    rcases List.mem_append.1 hy with hy1 | hy2
    · simpa using hfree y hy1
    · simp only [beq_eq_false_iff_ne, ne_eq]
      intro hcontra
      exact hnotin (by rw [haid, ← hcontra]; exact List.mem_map_of_mem _ hy2)
  have hnone2 : removeFirst (fun p => p.id == pid)
      ((setProgs st u (l1 ++ l2)).programmes u) = none := by
    rw [hslice]
    exact removeFirst_of_not_mem hall
  have e2 : deleteProgrammeSimple (setProgs st u (l1 ++ l2)) u pid =
      (sendJson 404 (jsonError ("Programme not found")), setProgs st u (l1 ++ l2)) := by
    unfold deleteProgrammeSimple
    rw [hnone2]
  have e2x : deleteProgrammeExpress (setProgs st u (l1 ++ l2)) u pid =
      (sendJson 404 (jsonError ("Programme not found")), setProgs st u (l1 ++ l2)) := by
    unfold deleteProgrammeExpress
    rw [hnone2]
  refine ⟨by rw [e1]; rfl, ⟨l1, a, l2, hl, haid, ?_, by rw [e1, hslice]⟩, ?_,
    by rw [e1]; rfl, ?_, ?_, ?_, ?_⟩
  · intro y hy
    simpa using hfree y hy
  · intro v hv
    rw [e1]
    simp [setProgs, hv]
  · rw [e1, e2]; rfl
  · rw [e1, e2]
  · rw [e1x]
  · rw [e1x, e2x]; rfl

/-- Witness for C6 on a store holding one programme. -/
theorem delete_twice_witness :
    (∃ p ∈ stOneProg.programmes "demo-user", p.id = "p1") ∧
    ((stOneProg.programmes "demo-user").map (fun p => p.id)).Nodup ∧
    ((deleteProgrammeSimple stOneProg "demo-user" "p1").1.status = 204 ∧
    (∃ l1 a l2, stOneProg.programmes "demo-user" = l1 ++ a :: l2 ∧ a.id = "p1" ∧
      (∀ y ∈ l1, y.id ≠ "p1") ∧
      ((deleteProgrammeSimple stOneProg "demo-user" "p1").2).programmes "demo-user" = l1 ++ l2) ∧
    (∀ v, v ≠ "demo-user" →
      ((deleteProgrammeSimple stOneProg "demo-user" "p1").2).programmes v =
        stOneProg.programmes v) ∧
    ((deleteProgrammeSimple stOneProg "demo-user" "p1").2).scripts = stOneProg.scripts ∧
    (deleteProgrammeSimple ((deleteProgrammeSimple stOneProg "demo-user" "p1").2)
      "demo-user" "p1").1.status = 404 ∧
    (deleteProgrammeSimple ((deleteProgrammeSimple stOneProg "demo-user" "p1").2)
      "demo-user" "p1").2 = (deleteProgrammeSimple stOneProg "demo-user" "p1").2 ∧
    (deleteProgrammeExpress stOneProg "demo-user" "p1").1.status = 204 ∧
    (deleteProgrammeExpress ((deleteProgrammeExpress stOneProg "demo-user" "p1").2)
      "demo-user" "p1").1.status = 404) :=
  ⟨by decide, by decide, delete_twice stOneProg "demo-user" "p1" (by decide) (by decide)⟩

/-- C10: a PUT on a script present in the caller's sequence rewrites only
the content, sources and updatedAt fields of the first record carrying
that id; its id, programmeId, topic and createdAt, the surrounding
records, every other user's scripts and all programmes are unchanged. -/
theorem script_update_frame (st : ServerState) (u sid : String) (body : ScriptBody)
    (t : String) (hmem : ∃ s ∈ st.scripts u, s.id = sid) :
    ∃ l1 old l2,
      st.scripts u = l1 ++ old :: l2 ∧
      old.id = sid ∧
      (∀ y ∈ l1, y.id ≠ sid) ∧
      updateScriptOp st u sid body t =
        (sendJson 200 (scriptJson (applyScriptUpdate body t old)),
          setScripts st u (l1 ++ applyScriptUpdate body t old :: l2)) ∧
      (applyScriptUpdate body t old).id = old.id ∧
      (applyScriptUpdate body t old).programmeId = old.programmeId ∧
      (applyScriptUpdate body t old).topic = old.topic ∧
      (applyScriptUpdate body t old).createdAt = old.createdAt ∧
      (applyScriptUpdate body t old).content = body.content ∧
      (applyScriptUpdate body t old).sources = body.sources ∧
      (applyScriptUpdate body t old).updatedAt = some t ∧
      ((updateScriptOp st u sid body t).2).programmes = st.programmes ∧
      (∀ v, v ≠ u → ((updateScriptOp st u sid body t).2).scripts v = st.scripts v) := by
  obtain ⟨x, hx, hxid⟩ := hmem
  obtain ⟨l1, a, l2, hl, hfree, ha, hr⟩ :=
    replaceFirst_decomp (fun s => s.id == sid) (applyScriptUpdate body t) hx
      (by simp [hxid])
  have haid : a.id = sid := by simpa using ha
  have e1 : updateScriptOp st u sid body t =
      (sendJson 200 (scriptJson (applyScriptUpdate body t a)),
        setScripts st u (l1 ++ applyScriptUpdate body t a :: l2)) := by
    unfold updateScriptOp
    rw [hr]
  refine ⟨l1, a, l2, hl, haid, ?_, e1, rfl, rfl, rfl, rfl, rfl, rfl, rfl, ?_, ?_⟩
  · intro y hy
    simpa using hfree y hy
  · rw [e1]; rfl
  · intro v hv
    rw [e1]
    simp [setScripts, hv]

/-- Witness for C10 on a store holding one script. -/
theorem script_update_frame_witness :
    (∃ s ∈ stOneScript.scripts "demo-user", s.id = "s1") ∧
    (∃ l1 old l2,
      stOneScript.scripts "demo-user" = l1 ++ old :: l2 ∧
      old.id = "s1" ∧
      (∀ y ∈ l1, y.id ≠ "s1") ∧
      updateScriptOp stOneScript "demo-user" "s1" updBody "t1" =
        (sendJson 200 (scriptJson (applyScriptUpdate updBody "t1" old)),
          setScripts stOneScript "demo-user"
            (l1 ++ applyScriptUpdate updBody "t1" old :: l2)) ∧
      (applyScriptUpdate updBody "t1" old).id = old.id ∧
      (applyScriptUpdate updBody "t1" old).programmeId = old.programmeId ∧
      (applyScriptUpdate updBody "t1" old).topic = old.topic ∧
      (applyScriptUpdate updBody "t1" old).createdAt = old.createdAt ∧
      (applyScriptUpdate updBody "t1" old).content = updBody.content ∧
      (applyScriptUpdate updBody "t1" old).sources = updBody.sources ∧
      (applyScriptUpdate updBody "t1" old).updatedAt = some "t1" ∧
      ((updateScriptOp stOneScript "demo-user" "s1" updBody "t1").2).programmes =
        stOneScript.programmes ∧
      (∀ v, v ≠ "demo-user" →
        ((updateScriptOp stOneScript "demo-user" "s1" updBody "t1").2).scripts v =
          stOneScript.scripts v)) :=
  ⟨by decide, script_update_frame stOneScript "demo-user" "s1" updBody "t1" (by decide)⟩

/-- An environment with every provider credential configured. -/
def envAllConfigured : Env :=
  { geminiKey := some ("gk"), claudeKey := some ("ck"), openaiKey := some ("ok") }

/-- An environment with the Gemini credential absent. -/
def envNoGemini : Env :=
  { geminiKey := none, claudeKey := some ("ck"), openaiKey := some ("ok") }

/-- A store holding one programme and one script for demo-user. -/
def stBoth : ServerState :=
  { programmes := fun v => if v = "demo-user" then [pgmA] else [],
    scripts := fun v => if v = "demo-user" then [scrA] else [] }

/-- C2: an authenticated generate request whose model string, lowercased,
is outside the known set is answered 400 with an error body by both
server variants, and the outcome is a response, never a provider fetch. -/
theorem generate_unknown_model_rejected (env : Env) (auth model prompt : Option String)
    (uid : String) (hauth : getUserId auth = some uid)
    (hm : knownModel (jsToLowerCase (model.getD "")) = false) :
    (∃ msg, generateSimple env auth model prompt = .respond (sendJson 400 (jsonError msg))) ∧
    (∃ msg, generateExpress env auth model prompt = .respond (sendJson 400 (jsonError msg))) := by
  simp only [knownModel, Bool.or_eq_false_iff, decide_eq_false_iff_not] at hm
  obtain ⟨⟨⟨h1, h2⟩, h3⟩, h4⟩ := hm
  constructor
  · unfold generateSimple
    rw [hauth]
    by_cases hc : (!jsTruthy model || !jsTruthy prompt) = true
    · exact ⟨"Missing model or prompt", by simp [hc]⟩
    · refine ⟨"Unsupported model", ?_⟩
      simp only [Bool.not_eq_true] at hc
      simp [hc, h1, h2, h3, h4]
  · unfold generateExpress
    rw [auth_resolvers_agree, hauth]
    refine ⟨"Unsupported model", ?_⟩
    simp [h1, h2, h3, h4]

/-- Witness for C2 with a configured environment and the model string
bogus. -/
theorem generate_unknown_model_rejected_witness :
    getUserId (some ("Bearer t")) = some "demo-user" ∧
    knownModel (jsToLowerCase (((some ("bogus")) : Option String).getD "")) = false ∧
    ((∃ msg, generateSimple envAllConfigured (some ("Bearer t")) (some ("bogus"))
        (some ("p")) = .respond (sendJson 400 (jsonError msg))) ∧
      (∃ msg, generateExpress envAllConfigured (some ("Bearer t")) (some ("bogus"))
        (some ("p")) = .respond (sendJson 400 (jsonError msg)))) :=
  ⟨by decide, by decide,
    generate_unknown_model_rejected envAllConfigured (some ("Bearer t")) (some ("bogus"))
      (some ("p")) "demo-user" (by decide) (by decide)⟩

/-- C3: when the selected provider's credential environment variable is
absent, the provider helper throws the message naming the credential
before any fetch, and the authenticated generate request is answered 500
with that message in the error body, in both server variants. -/
theorem generate_missing_credential (env : Env) (auth : Option String) (uid m : String)
    (prompt : String) (p : Provider)
    (hauth : getUserId auth = some uid) (hp : providerFor m = some p)
    (hcred : credOf env p = none) (hprompt : prompt ≠ "") :
    invokeHelper p env (some prompt) = .error ((credName p) ++ " not configured") ∧
    generateSimple env auth (some m) (some prompt) =
      .respond (sendJson 500 (jsonError ((credName p) ++ " not configured"))) ∧
    generateExpress env auth (some m) (some prompt) =
      .respond (sendJson 500 (jsonError ((credName p) ++ " not configured"))) := by
  have hm0 : m ≠ "" := by
    rintro rfl
    revert hp
    cases p <;> decide
  have hmt : jsTruthy (some m) = true := by simp [jsTruthy, hm0]
  have hpt : jsTruthy (some prompt) = true := by simp [jsTruthy, hprompt]
  unfold providerFor at hp
  split_ifs at hp with hg hc ho
  · simp only [Option.some.injEq] at hp
    subst hp
    have hk : env.geminiKey = none := hcred
    refine ⟨?_, ?_, ?_⟩
    · simp [invokeHelper, callGemini, hk, jsTruthy]
    · unfold generateSimple
      rw [hauth]
      simp [hmt, hpt, hg, callGemini, hk, jsTruthy, outcomeOf, hm0, hprompt]
    · unfold generateExpress
      rw [auth_resolvers_agree, hauth]
      simp [hg, callGemini, hk, jsTruthy, outcomeOf]
  · simp only [Option.some.injEq] at hp
    subst hp
    have hk : env.claudeKey = none := hcred
    refine ⟨?_, ?_, ?_⟩
    · simp [invokeHelper, callClaude, hk, jsTruthy]
    · unfold generateSimple
      rw [hauth]
      simp [hmt, hpt, hg, hc, callClaude, hk, jsTruthy, outcomeOf, hm0, hprompt]
    · unfold generateExpress
      rw [auth_resolvers_agree, hauth]
      simp [hg, hc, callClaude, hk, jsTruthy, outcomeOf]
  · simp only [Option.some.injEq] at hp
    subst hp
    have hk : env.openaiKey = none := hcred
    refine ⟨?_, ?_, ?_⟩
    · simp [invokeHelper, callOpenAI, hk, jsTruthy]
    · unfold generateSimple
      rw [hauth]
      simp [hmt, hpt, hg, hc, ho, callOpenAI, hk, jsTruthy, outcomeOf, hm0, hprompt]
    · unfold generateExpress
      rw [auth_resolvers_agree, hauth]
      simp [hg, hc, ho, callOpenAI, hk, jsTruthy, outcomeOf]

/-- Witness for C3 with the Gemini credential removed. -/
theorem generate_missing_credential_witness :
    getUserId (some ("Bearer t")) = some "demo-user" ∧
    providerFor "gemini" = some Provider.gemini ∧
    credOf envNoGemini Provider.gemini = none ∧
    ("p" : String) ≠ "" ∧
    (invokeHelper Provider.gemini envNoGemini (some "p") =
        .error ((credName Provider.gemini) ++ " not configured") ∧
      generateSimple envNoGemini (some ("Bearer t")) (some "gemini") (some "p") =
        .respond (sendJson 500 (jsonError ((credName Provider.gemini) ++ " not configured"))) ∧
      generateExpress envNoGemini (some ("Bearer t")) (some "gemini") (some "p") =
        .respond (sendJson 500 (jsonError ((credName Provider.gemini) ++ " not configured")))) :=
  ⟨by decide, by decide, by decide, by decide,
    generate_missing_credential envNoGemini (some ("Bearer t")) "demo-user" "gemini" "p"
      Provider.gemini (by decide) (by decide) (by decide) (by decide)⟩

/-- C7 counterexample: in the minimal server an authenticated generate
request for a known, configured model with the empty-string prompt is
rejected 400 (Missing model or prompt) before any provider helper runs,
so the prompt is not forwarded as the claim states. -/
theorem empty_prompt_rejected_counterexample :
    generateSimple envAllConfigured (some ("Bearer t")) (some ("gemini")) (some ("")) =
      .respond (sendJson 400 (jsonError ("Missing model or prompt"))) ∧
    (generateSimple envAllConfigured (some ("Bearer t")) (some ("gemini"))
        (some (""))).isNetwork = false := by
  constructor
  · rfl
  · rfl

/-- C7 amended: the Express variant performs no prompt validation and
forwards an empty prompt to the configured provider as-is, while the
minimal server rejects a falsy (empty) prompt with 400 before the
provider helper is invoked. -/
theorem empty_prompt_amended (env : Env) (auth : Option String) (uid m : String) (p : Provider)
    (hauth : getUserId auth = some uid) (hp : providerFor m = some p)
    (hcred : jsTruthy (credOf env p) = true) :
    generateSimple env auth (some m) (some ("")) =
      .respond (sendJson 400 (jsonError ("Missing model or prompt"))) ∧
    ∃ c : FetchCall, generateExpress env auth (some m) (some ("")) = .network c ∧
      c.promptSent = some ("") ∧ c.provider = p := by
  constructor
  · unfold generateSimple
    rw [hauth]
    simp [jsTruthy]
  · unfold generateExpress
    rw [auth_resolvers_agree, hauth]
    unfold providerFor at hp
    split_ifs at hp with hg hc ho
    · simp only [Option.some.injEq] at hp
      subst hp
      have hk : jsTruthy env.geminiKey = true := hcred
      refine ⟨{ provider := .gemini, apiKey := (env.geminiKey).getD "", promptSent := some ("") }, ?_, rfl, rfl⟩
      simp [hg, callGemini, hk, outcomeOf]
    · simp only [Option.some.injEq] at hp
      subst hp
      have hk : jsTruthy env.claudeKey = true := hcred
      refine ⟨{ provider := .claude, apiKey := (env.claudeKey).getD "", promptSent := some ("") }, ?_, rfl, rfl⟩
      simp [hg, hc, callClaude, hk, outcomeOf]
    · simp only [Option.some.injEq] at hp
      subst hp
      have hk : jsTruthy env.openaiKey = true := hcred
      refine ⟨{ provider := .openai, apiKey := (env.openaiKey).getD "", promptSent := some ("") }, ?_, rfl, rfl⟩
      simp [hg, hc, ho, callOpenAI, hk, outcomeOf]

/-- Witness for the amended C7 with the Gemini credential configured. -/
theorem empty_prompt_amended_witness :
    getUserId (some ("Bearer t")) = some "demo-user" ∧
    providerFor "gemini" = some Provider.gemini ∧
    jsTruthy (credOf envAllConfigured Provider.gemini) = true ∧
    (generateSimple envAllConfigured (some ("Bearer t")) (some "gemini") (some ("")) =
      .respond (sendJson 400 (jsonError ("Missing model or prompt"))) ∧
    ∃ c : FetchCall, generateExpress envAllConfigured (some ("Bearer t")) (some "gemini")
        (some ("")) = .network c ∧ c.promptSent = some ("") ∧ c.provider = Provider.gemini) :=
  ⟨by decide, by decide, by decide,
    empty_prompt_amended envAllConfigured (some ("Bearer t")) "demo-user" "gemini"
      Provider.gemini (by decide) (by decide) (by decide)⟩

/-- Create inputs that observe the same clock reading and random suffix
twice. -/
def collisionIns : List (ProgBody × Nat × String × String) :=
  [(noFields, 0, "x", "t0"), (noFields, 0, "x", "t0")]

/-- C8 counterexample: two creates that observe the same Date.now reading
and the same random suffix return identical ids, so the user's sequence
holds duplicate ids and uniqueness does not hold unconditionally. -/
theorem id_collision_counterexample :
    (((runOps "demo-user" emptyState (createOpsOf collisionIns)).2).programmes
        "demo-user").map (fun p => p.id) = ["programme-0-x", "programme-0-x"] ∧
    ¬ ((((runOps "demo-user" emptyState (createOpsOf collisionIns)).2).programmes
        "demo-user").map (fun p => p.id)).Nodup := by
  constructor
  · rfl
  · decide

/-- C8 amended: starting from process start, as long as no two creates
for the user observe the same (Date.now reading, random suffix) pair, the
ids in the user's sequence are pairwise distinct — each new id differs
from every id previously created for that user. -/
theorem ids_nodup_amended (u : String) (ins : List (ProgBody × Nat × String × String))
    (hnd : (ins.map (fun q => (q.2.1, q.2.2.1))).Nodup) :
    ((((runOps u emptyState (createOpsOf ins)).2).programmes u).map
      (fun p => p.id)).Nodup := by
  rw [runOps_createOps]
  simp only [emptyState, List.append_nil]
  rw [List.map_reverse, List.nodup_reverse, List.map_map]
  have e : ((fun p : Programme => p.id) ∘ mkOf) =
      ((fun pr : Nat × String => generateId ("programme") pr.1 pr.2) ∘
        (fun q : ProgBody × Nat × String × String => (q.2.1, q.2.2.1))) := rfl
  rw [e, ← List.map_map]
  refine List.Nodup.map_on ?_ hnd
  intro x hx y hy hxy
  obtain ⟨e1, e2⟩ := generateId_inj hxy
  exact Prod.ext e1 e2

/-- Witness for the amended C8 with two distinct clock readings. -/
theorem ids_nodup_amended_witness :
    (([(noFields, 0, "x", "t0"), (noFields, 1, "x", "t0")].map
      (fun q => (q.2.1, q.2.2.1))).Nodup) ∧
    ((((runOps "demo-user" emptyState
        (createOpsOf [(noFields, 0, "x", "t0"), (noFields, 1, "x", "t0")])).2).programmes
          "demo-user").map (fun p => p.id)).Nodup :=
  ⟨by decide, ids_nodup_amended "demo-user" [(noFields, 0, "x", "t0"), (noFields, 1, "x", "t0")]
    (by decide)⟩

/-- C9 counterexample: in the minimal server a successful programme
DELETE answers 204 but passes the two-byte serialized empty object to the
response, so payload bytes are written, contrary to the claim. -/
theorem delete_payload_counterexample :
    (deleteProgrammeSimple stOneProg "demo-user" "p1").1.status = 204 ∧
    payloadBytes (deleteProgrammeSimple stOneProg "demo-user" "p1").1 = "\x7b\x7d" ∧
    payloadBytes (deleteProgrammeSimple stOneProg "demo-user" "p1").1 ≠ "" := by
  refine ⟨rfl, rfl, ?_⟩
  decide

/-- C9 amended: every successful DELETE of a programme or script answers
204; the Express variant ends the response with no body at all, while the
minimal server passes the serialized empty object as the payload. -/
theorem delete_status_amended (st : ServerState) (u pid sid : String)
    (hp : ∃ p ∈ st.programmes u, p.id = pid)
    (hs : ∃ s ∈ st.scripts u, s.id = sid) :
    (deleteProgrammeSimple st u pid).1.status = 204 ∧
    payloadBytes (deleteProgrammeSimple st u pid).1 = "\x7b\x7d" ∧
    (deleteProgrammeExpress st u pid).1.status = 204 ∧
    (deleteProgrammeExpress st u pid).1.body = none ∧
    payloadBytes (deleteProgrammeExpress st u pid).1 = "" ∧
    (deleteScriptSimple st u sid).1.status = 204 ∧
    payloadBytes (deleteScriptSimple st u sid).1 = "\x7b\x7d" ∧
    (deleteScriptExpress st u sid).1.status = 204 ∧
    (deleteScriptExpress st u sid).1.body = none ∧
    payloadBytes (deleteScriptExpress st u sid).1 = "" := by
  obtain ⟨x, hx, hxid⟩ := hp
  obtain ⟨l1, a, l2, _, _, _, hr⟩ :=
    removeFirst_decomp (fun p => p.id == pid) hx (by simp [hxid])
  obtain ⟨y, hy, hyid⟩ := hs
  obtain ⟨m1, b, m2, _, _, _, hr2⟩ :=
    removeFirst_decomp (fun s => s.id == sid) hy (by simp [hyid])
  have e1 : deleteProgrammeSimple st u pid =
      (sendJson 204 (Json.obj []), setProgs st u (l1 ++ l2)) := by
    unfold deleteProgrammeSimple
    rw [hr]
  have e1x : deleteProgrammeExpress st u pid =
      ({ status := 204, body := none }, setProgs st u (l1 ++ l2)) := by
    unfold deleteProgrammeExpress
    rw [hr]
  have e2 : deleteScriptSimple st u sid =
      (sendJson 204 (Json.obj []), setScripts st u (m1 ++ m2)) := by
    unfold deleteScriptSimple
    rw [hr2]
  have e2x : deleteScriptExpress st u sid =
      ({ status := 204, body := none }, setScripts st u (m1 ++ m2)) := by
    unfold deleteScriptExpress
    rw [hr2]
  rw [e1, e1x, e2, e2x]
  exact ⟨rfl, rfl, rfl, rfl, rfl, rfl, rfl, rfl, rfl, rfl⟩

/-- Witness for the amended C9 on a store with one programme and one
script. -/
theorem delete_status_amended_witness :
    (∃ p ∈ stBoth.programmes "demo-user", p.id = "p1") ∧
    (∃ s ∈ stBoth.scripts "demo-user", s.id = "s1") ∧
    ((deleteProgrammeSimple stBoth "demo-user" "p1").1.status = 204 ∧
    payloadBytes (deleteProgrammeSimple stBoth "demo-user" "p1").1 = "\x7b\x7d" ∧
    (deleteProgrammeExpress stBoth "demo-user" "p1").1.status = 204 ∧
    (deleteProgrammeExpress stBoth "demo-user" "p1").1.body = none ∧
    payloadBytes (deleteProgrammeExpress stBoth "demo-user" "p1").1 = "" ∧
    (deleteScriptSimple stBoth "demo-user" "s1").1.status = 204 ∧
    payloadBytes (deleteScriptSimple stBoth "demo-user" "s1").1 = "\x7b\x7d" ∧
    (deleteScriptExpress stBoth "demo-user" "s1").1.status = 204 ∧
    (deleteScriptExpress stBoth "demo-user" "s1").1.body = none ∧
    payloadBytes (deleteScriptExpress stBoth "demo-user" "s1").1 = "") :=
  ⟨by decide, by decide,
    delete_status_amended stBoth "demo-user" "p1" "s1" (by decide) (by decide)⟩

end CreativeStudio
